import Mathlib

/-!
Shallow embedding of the users-list page of the repository: the query
cache and optimistic mutation engine (`src/hooks/useUsers.ts`), the
URL-parameter view-state synchronizer and its handlers
(`src/pages/UsersPage/UsersPage.tsx`), the metadata-driven cell
renderer (`src/components/tables/DynamicGrid.tsx`), the per-row
actions control (`src/components/tables/UserActions.tsx`) and the
`useLocalStorage` hook.  Machine integers of the source are modelled
as `Nat`; JS `undefined`/`null` and absent object fields are modelled
with `Option` or dedicated constructors.
-/

namespace UsersApp

/-- `'active' | 'inactive'` — a user's status (`src/types`). -/
inductive Status where
  | active
  | inactive
deriving DecidableEq, Repr

/-- `'all' | 'active' | 'inactive'` — the status filter of the page. -/
inductive StatusFilter where
  | all
  | active
  | inactive
deriving DecidableEq, Repr

/-- `{groupId, groupName}` element of a user's `groups` sequence. -/
structure Group where
  groupId : String
  groupName : String
deriving DecidableEq, Repr

/-- The user record: `userId`, `status`, and its other fields
(`name`, `email`, `groups`, `createdAt`). -/
structure User where
  userId : String
  name : String
  email : String
  status : Status
  groups : List Group
  createdAt : String
deriving DecidableEq, Repr

/-- `PaginationParams` — the argument of `fetchUsers` and of
`userQueryKeys.list` (`{page, pageSize, query, status}`). -/
structure PaginationParams where
  page : Nat
  pageSize : Nat
  query : String
  status : StatusFilter
deriving DecidableEq, Repr

/-- The query keys this program constructs: `userQueryKeys.all =
['users']` and `userQueryKeys.list params = ['users', 'list', params]`
(`src/hooks/useUsers.ts`, lines 6–9). -/
inductive QueryKey where
  | usersAll
  | usersList (params : PaginationParams)
deriving DecidableEq, Repr

/-- Query-filter matching of the cache library: a filter key matches
every cached key of which it is a prefix, so the filter `['users']`
matches every `['users', 'list', params]` key (the whole family). -/
def matchesFilter (filter k : QueryKey) : Bool :=
  match filter, k with
  | .usersAll, _ => true
  | .usersList p, .usersList q => decide (p = q)
  | .usersList _, .usersAll => false

/-- `{users, totalCount}` — the `data` field of a cached `fetchUsers`
response (`data.data.users`, `data.data.totalCount` in the source). -/
structure UsersPayload where
  users : List User
  totalCount : Nat
deriving DecidableEq, Repr

/-- A cached `fetchUsers` response: the `data` payload plus the other
top-level fields preserved by the `{...old}` spread (`success`,
`message`). -/
structure UsersResponse where
  success : Bool
  message : String
  data : UsersPayload
deriving DecidableEq, Repr

/-- The value stored in a cache entry, as the `any`-typed `old` seen
by the `setQueriesData` updater: `nullish` is `old == null/undefined`,
`noData` is an object without a `data` field, `noUsers` an object
whose `data` lacks a `users` field (all three fail the
`old?.data?.users` test), `page` a conforming response. -/
inductive CacheValue where
  | nullish
  | noData (raw : String)
  | noUsers (raw : String)
  | page (resp : UsersResponse)
deriving DecidableEq, Repr

/-- Whether `old?.data?.users` is truthy for this cached value. -/
def CacheValue.hasUsersList : CacheValue → Bool
  | .page _ => true
  | _ => false

/-- The arrow function inside the optimistic `users.map`:
`user.userId === userId ? { ...user, status } : user`
(`src/hooks/useUsers.ts`, lines 49–51). -/
def setStatusIfMatch (userId : String) (status : Status) (u : User) : User :=
  if u.userId = userId then { u with status := status } else u

/-- The `setQueriesData` updater of `onMutate`
(`src/hooks/useUsers.ts`, lines 42–54): returns `old` unchanged when
`old?.data?.users` is falsy, otherwise rewrites the `users` list
record-wise, spreading every other field through unchanged. -/
def optimisticUpdate (userId : String) (status : Status) :
    CacheValue → CacheValue
  | .nullish => .nullish
  | .noData raw => .noData raw
  | .noUsers raw => .noUsers raw
  | .page resp =>
      .page { resp with
              data := { resp.data with
                        users := resp.data.users.map
                          (setStatusIfMatch userId status) } }

/-- The per-entry state the mutation engine touches: the cached value,
whether the entry is marked invalidated, and whether a fetch for its
key is in flight. -/
structure QueryState where
  value : CacheValue
  invalidated : Bool
  inFlight : Bool
deriving DecidableEq, Repr

/-- The query client's cache: an association of query keys to entry
state (the library keeps at most one entry per key). -/
structure Client where
  entries : List (QueryKey × QueryState)
deriving DecidableEq, Repr

/-- `queryClient.cancelQueries({queryKey})`: stops the in-flight fetch
of every entry whose key matches the filter. -/
def cancelQueries (filter : QueryKey) (c : Client) : Client :=
  { entries := c.entries.map fun e =>
      if matchesFilter filter e.1 then (e.1, { e.2 with inFlight := false })
      else e }

/-- `queryClient.getQueriesData({queryKey})`: the `(key, value)` pairs
of every entry whose key matches the filter — the `previousUsers`
snapshot of `onMutate` (`src/hooks/useUsers.ts`, line 39). -/
def getQueriesData (filter : QueryKey) (c : Client) :
    List (QueryKey × CacheValue) :=
  (c.entries.filter fun e => matchesFilter filter e.1).map
    fun e => (e.1, e.2.value)

/-- `queryClient.setQueriesData({queryKey}, updater)`: applies the
updater to the value of every entry whose key matches the filter. -/
def setQueriesData (filter : QueryKey) (f : CacheValue → CacheValue)
    (c : Client) : Client :=
  { entries := c.entries.map fun e =>
      if matchesFilter filter e.1 then (e.1, { e.2 with value := f e.2.value })
      else e }

/-- `queryClient.setQueryData(key, value)`: writes the value of the
entry with exactly this key, creating the entry when absent. -/
def setQueryData (k : QueryKey) (v : CacheValue) (c : Client) : Client :=
  if c.entries.any fun e => e.1 = k then
    { entries := c.entries.map fun e =>
        if e.1 = k then (e.1, { e.2 with value := v }) else e }
  else
    { entries := c.entries ++ [(k, ⟨v, false, false⟩)] }

/-- `queryClient.invalidateQueries({queryKey})`: marks every entry
whose key matches the filter as invalidated. -/
def invalidateQueries (filter : QueryKey) (c : Client) : Client :=
  { entries := c.entries.map fun e =>
      if matchesFilter filter e.1 then (e.1, { e.2 with invalidated := true })
      else e }

/-- The snapshot `onMutate` returns as mutation context
(`{ previousUsers }`). -/
abbrev Snapshot := List (QueryKey × CacheValue)

/-- The call `onMutate`'s surrounding mutation dispatches to the
external collaborator: `updateUserStatus(userId, status)`
(`src/hooks/useUsers.ts`, lines 30–31). -/
structure DispatchedCall where
  userId : String
  status : Status
deriving DecidableEq, Repr

/-- `useUpdateUserStatus.onMutate` (`src/hooks/useUsers.ts`,
lines 34–58) followed by the dispatch of `mutationFn`: cancel the
family's fetches, snapshot the family, optimistically rewrite the
family, and hand the write to `updateUserStatus`. -/
def mutateInvoke (userId : String) (status : Status) (c : Client) :
    Client × Snapshot × DispatchedCall :=
  let c1 := cancelQueries .usersAll c
  let previousUsers := getQueriesData .usersAll c1
  let c2 := setQueriesData .usersAll (optimisticUpdate userId status) c1
  (c2, previousUsers, ⟨userId, status⟩)

/-- `useUpdateUserStatus.onError` (`src/hooks/useUsers.ts`,
lines 61–68): `context.previousUsers.forEach(([queryKey, data]) =>
queryClient.setQueryData(queryKey, data))`. -/
def rollbackFromSnapshot (snap : Snapshot) (c : Client) : Client :=
  snap.foldl (fun acc kv => setQueryData kv.1 kv.2 acc) c

/-- `useUpdateUserStatus.onSettled` (`src/hooks/useUsers.ts`,
lines 71–73): `queryClient.invalidateQueries({queryKey:
userQueryKeys.all})`. -/
def onSettledInvalidate (c : Client) : Client :=
  invalidateQueries .usersAll c

/-- A snackbar notification produced by `handleToggleStatus`'s
callbacks (`src/pages/UsersPage/UsersPage.tsx`, lines 114–127). -/
structure Notification where
  message : String
  isError : Bool
deriving DecidableEq, Repr

/-- Whether a mutation still holds its snapshot: `pending` carries the
live `MutationSnapshot`, `settled` carries none — settlement consumes
and discards it. -/
inductive MutationPhase where
  | pending (snap : Snapshot)
  | settled

/-- Settlement of a failed mutation: the hook-level `onError` restores
the snapshot, the call-level `onError` of `handleToggleStatus` emits
the error snackbar, and `onSettled` invalidates the family. -/
def settleFailure (snap : Snapshot) (c : Client) :
    Client × List Notification × MutationPhase :=
  let c1 := rollbackFromSnapshot snap c
  let notes := [⟨"Failed to update user status", true⟩]
  let c2 := onSettledInvalidate c1
  (c2, notes, .settled)

/-- Settlement of a successful mutation: the call-level `onSuccess` of
`handleToggleStatus` emits the success snackbar with the response
message, and `onSettled` invalidates the family; the snapshot is
discarded unused. -/
def settleSuccess (responseMessage : String) (c : Client) :
    Client × List Notification × MutationPhase :=
  let notes := [⟨responseMessage, false⟩]
  let c2 := onSettledInvalidate c
  (c2, notes, .settled)

/-- Value of the entry with the given key, when present. -/
def valueAt (c : Client) (k : QueryKey) : Option CacheValue :=
  (c.entries.find? fun e => e.1 = k).map fun e => e.2.value

/-- Modelled from the spec: the read path (§4.4) — a read for a key is
served synchronously from the cache only when an entry for that key
exists and is not marked invalidated; otherwise the read goes back to
the data-source collaborator. -/
def readRefetches (c : Client) (k : QueryKey) : Bool :=
  match c.entries.find? fun e => e.1 = k with
  | none => true
  | some e => e.2.invalidated

/-- One decimal digit character, as JS number printing emits it. -/
def digitChar (d : Nat) : Char := Char.ofNat (48 + d)

/-- Little-endian decimal digits, with explicit fuel so the recursion
is structural (the fuel never runs out when it starts at the number
itself). -/
def toDigitsRevFuel : Nat → Nat → List Nat
  | 0, _ => []
  | _ + 1, 0 => []
  | fuel + 1, n + 1 => ((n + 1) % 10) :: toDigitsRevFuel fuel ((n + 1) / 10)

/-- Little-endian decimal digits of a natural number (empty for 0). -/
def toDigitsRev (n : Nat) : List Nat := toDigitsRevFuel n n

/-- Numeric value of a little-endian decimal digit list. -/
def ofDigitsRev : List Nat → Nat
  | [] => 0
  | d :: ds => d + 10 * ofDigitsRev ds

/-- JS `(n).toString()` on a non-negative integer: its decimal
numeral. -/
def jsNatToString (n : Nat) : String :=
  if n = 0 then "0" else String.mk ((toDigitsRev n).reverse.map digitChar)

/-- Decimal value of a digit character, `none` for a non-digit. -/
def digitVal (c : Char) : Option Nat :=
  if 48 ≤ c.toNat ∧ c.toNat ≤ 57 then some (c.toNat - 48) else none

/-- JS `parseInt` on the all-digit numerals this synchronizer writes:
the numeral's value; `none` models the `NaN` outcome on a string with
no leading digits. -/
def jsParseNat (s : String) : Option Nat :=
  (s.data.mapM digitVal).map fun ds => ofDigitsRev ds.reverse

/-- One entry of the MRT sorting state: `{id, desc}`. -/
structure SortEntry where
  id : String
  desc : Bool
deriving DecidableEq, Repr

/-- MRT pagination state: `{pageIndex, pageSize}`. -/
structure Pagination where
  pageIndex : Nat
  pageSize : Nat
deriving DecidableEq, Repr

/-- The in-memory state of `UsersPage`: raw and debounced search text,
status filter, pagination, sorting, and the persisted column
visibility. -/
structure PageState where
  searchQuery : String
  debouncedSearch : String
  statusFilter : StatusFilter
  pagination : Pagination
  sorting : List SortEntry
  columnVisibility : List (String × Bool)
deriving DecidableEq, Repr

/-- `handleSearchChange` (`UsersPage.tsx`, lines 130–134): stores the
keystroke value and resets `pageIndex` to 0. -/
def handleSearchChange (value : String) (s : PageState) : PageState :=
  { s with searchQuery := value
           pagination := { s.pagination with pageIndex := 0 } }

/-- `handleStatusFilterChange` (`UsersPage.tsx`, lines 137–140):
stores the filter and resets `pageIndex` to 0. -/
def handleStatusFilterChange (value : StatusFilter) (s : PageState) :
    PageState :=
  { s with statusFilter := value
           pagination := { s.pagination with pageIndex := 0 } }

/-- `handlePaginationChange` (`UsersPage.tsx`, lines 143–145). -/
def handlePaginationChange (p : Pagination) (s : PageState) : PageState :=
  { s with pagination := p }

/-- `onSortingChange={setSorting}` (`UsersPage.tsx`, line 252). -/
def handleSortingChange (x : List SortEntry) (s : PageState) : PageState :=
  { s with sorting := x }

/-- `onColumnVisibilityChange={setColumnVisibility}` (`UsersPage.tsx`,
line 254). -/
def handleVisibilityChange (vis : List (String × Bool)) (s : PageState) :
    PageState :=
  { s with columnVisibility := vis }

/-- Modelled from the spec: the `useDebounce` hook's settlement (its
source file is not under `src/`); §4.2 — when the quiet interval
elapses uninterrupted, the value present at that moment is forwarded
downstream, here into `debouncedSearchQuery`. -/
def debounceSettle (s : PageState) : PageState :=
  { s with debouncedSearch := s.searchQuery }

/-- A user-interaction or timer event the page can receive. -/
inductive PageEvent where
  | keystroke (value : String)
  | statusChange (value : StatusFilter)
  | paginate (p : Pagination)
  | sortChange (x : List SortEntry)
  | visChange (vis : List (String × Bool))
  | debounceFire
deriving DecidableEq, Repr

/-- One step of the page's state machine: each event is handled by
the source handler it is wired to. -/
def stepPage (s : PageState) : PageEvent → PageState
  | .keystroke v => handleSearchChange v s
  | .statusChange v => handleStatusFilterChange v s
  | .paginate p => handlePaginationChange p s
  | .sortChange x => handleSortingChange x s
  | .visChange vis => handleVisibilityChange vis s
  | .debounceFire => debounceSettle s

/-- Runs a sequence of page events from a state. -/
def runPage (s : PageState) (evs : List PageEvent) : PageState :=
  evs.foldl stepPage s

/-- The spec's ViewParams record: the complete set of user-adjustable
view parameters. -/
structure ViewParams where
  searchText : String
  statusFilter : StatusFilter
  pageIndex : Nat
  pageSize : Nat
  sort : Option SortEntry
  columnVisibility : List (String × Bool)
deriving DecidableEq, Repr

/-- The ViewParams the page state currently presents: `searchText` is
the debounced value, `sort` the head of the MRT sorting list. -/
def viewParamsOfState (s : PageState) : ViewParams :=
  { searchText := s.debouncedSearch
    statusFilter := s.statusFilter
    pageIndex := s.pagination.pageIndex
    pageSize := s.pagination.pageSize
    sort := s.sorting.head?
    columnVisibility := s.columnVisibility }

/-- The argument of the `useUsers` call (`UsersPage.tsx`, lines
80–85): `{page: pageIndex + 1, pageSize, query: debouncedSearchQuery,
status: statusFilter}` — read off the ViewParams. -/
def paginationParamsOfView (v : ViewParams) : PaginationParams :=
  { page := v.pageIndex + 1
    pageSize := v.pageSize
    query := v.searchText
    status := v.statusFilter }

/-- The cache key the read path derives from the ViewParams:
`userQueryKeys.list` applied to the fetch parameters. -/
def cacheKeyOfView (v : ViewParams) : QueryKey :=
  .usersList (paginationParamsOfView v)

/-- The external parameter representation: the recognized keys of the
URL-style flat string map (`page`, `status`, `search`, `sort`,
`order`), each possibly absent. -/
structure ExtParams where
  page : Option String
  status : Option String
  search : Option String
  sort : Option String
  order : Option String
deriving DecidableEq, Repr

/-- The literal of a status filter, as the source writes it. -/
def statusFilterString : StatusFilter → String
  | .all => "all"
  | .active => "active"
  | .inactive => "inactive"

/-- The URL-encoding effect (`UsersPage.tsx`, lines 88–108): always
writes `page` (1-based), writes `status` only when not `all`, `search`
only when the debounced value is non-empty, and `sort`/`order` from
the first sorting entry when one exists; the whole map replaces the
previous one. -/
def encodeParams (s : PageState) : ExtParams :=
  { page := some (jsNatToString (s.pagination.pageIndex + 1))
    status := if s.statusFilter ≠ .all
              then some (statusFilterString s.statusFilter) else none
    search := if s.debouncedSearch ≠ "" then some s.debouncedSearch else none
    sort := match s.sorting with
            | [] => none
            | e :: _ => some e.id
    order := match s.sorting with
             | [] => none
             | e :: _ => some (if e.desc then "desc" else "asc") }

/-- `(searchParams.get('status') as ...) || 'all'` (`UsersPage.tsx`,
lines 52–54): absence and the falsy empty string decode to `all`; the
source performs an unchecked cast, so strings other than the two
filter literals are outside the value space the synchronizer itself
writes and are modelled as the default. -/
def decodeStatusFilter : Option String → StatusFilter
  | none => .all
  | some s =>
      if s = "active" then .active
      else if s = "inactive" then .inactive
      else .all

/-- `searchParams.get('page') ? parseInt(searchParams.get('page')!) -
1 : 0` (`UsersPage.tsx`, line 56): absence and the falsy empty string
decode to 0; on the synchronizer's own encodings the numeral is ≥ 1,
so the model's clamp of `parseInt` outcomes below 1 to page index 0 is
never exercised on them. -/
def decodePageIndex : Option String → Nat
  | none => 0
  | some s => if s = "" then 0 else (jsParseNat s).getD 1 - 1

/-- Sorting initialization from the URL (`UsersPage.tsx`, lines
67–74): a truthy `sort` key yields one entry whose `desc` flag is the
`order === 'desc'` comparison. -/
def decodeSorting (sortP orderP : Option String) : List SortEntry :=
  match sortP with
  | none => []
  | some id => if id = "" then [] else [⟨id, orderP = some "desc"⟩]

/-- The page state `UsersPage` initializes from the external
parameters (`UsersPage.tsx`, lines 51–74): the debounced value starts
equal to the raw value, `pageSize` is the constant 10, and the column
visibility starts from the persisted-store default. -/
def decodeState (p : ExtParams) : PageState :=
  let q := p.search.getD ""
  { searchQuery := q
    debouncedSearch := q
    statusFilter := decodeStatusFilter p.status
    pagination := ⟨decodePageIndex p.page, 10⟩
    sorting := decodeSorting p.sort p.order
    columnVisibility := [] }

/-- The column types of `ColumnMetadata.type`. -/
inductive ColType where
  | plainText
  | badge
  | date
  | chiplist
deriving DecidableEq, Repr

/-- A column descriptor as `DynamicGrid` consumes it. -/
structure ColumnMetadata where
  key : String
  header : String
  type : ColType
  width : Option Nat
  sorting : Bool
  pinned : Bool
  format : Option String
deriving DecidableEq, Repr

/-- The `unknown`-typed raw cell value `renderCellByType` receives:
a string, a status literal, a groups sequence, or `null`/`undefined`. -/
inductive CellValue where
  | str (s : String)
  | statusVal (st : Status)
  | groupsVal (gs : List Group)
  | nullish
deriving DecidableEq, Repr

/-- The literal of a user status. -/
def statusString : Status → String
  | .active => "active"
  | .inactive => "inactive"

/-- JS string coercion of a cell value, as casts and template use
would produce it (an array stringifies element-wise to
`[object Object]` joined by commas). -/
def jsCoerceString : CellValue → String
  | .str s => s
  | .statusVal st => statusString st
  | .nullish => "undefined"
  | .groupsVal gs =>
      String.intercalate "," (gs.map fun _ => "[object Object]")

/-- One rendered chip of the chiplist branch: the React `key` and the
`label`. -/
structure ChipTag where
  key : String
  label : String
deriving DecidableEq, Repr

/-- The render instruction `renderCellByType` produces: the raw value
passed through (string columns), a colored badge chip, a date cell, the
`No groups` placeholder span, a box of chips, or the marker for a
branch that would raise a `TypeError` at runtime. -/
inductive RenderNode where
  | rawText (v : CellValue)
  | badgeChip (label : String) (colorSuccess : Bool)
  | dateCell (v : CellValue) (fmt : Option String)
  | noGroupsSpan
  | chipBox (chips : List ChipTag)
  | thrown
deriving DecidableEq, Repr

/-- `renderCellByType` (`src/components/tables/DynamicGrid.tsx`, lines
36–81): dispatch on the column type; the chiplist branch returns the
`No groups` span when `!groups || groups.length === 0` and otherwise
maps each group to a chip keyed by `groupId` and labeled
`groupName`. -/
def renderCellByType (value : CellValue) (meta : ColumnMetadata) :
    RenderNode :=
  match meta.type with
  | .plainText => .rawText value
  | .badge => .badgeChip (jsCoerceString value) (jsCoerceString value = "active")
  | .date => .dateCell value meta.format
  | .chiplist =>
      match value with
      | .nullish => .noGroupsSpan
      | .groupsVal gs =>
          if gs.length = 0 then .noGroupsSpan
          else .chipBox (gs.map fun g => ⟨g.groupId, g.groupName⟩)
      | .str s => if s = "" then .noGroupsSpan else .thrown
      | .statusVal _ => .thrown

/-- The props each row's `UserActions` receives. -/
structure ActionsProps where
  user : User
  isUpdating : Bool
deriving DecidableEq, Repr

/-- What `UserActions` renders: either the progress spinner replacing
the control, or the toggle button bound to the user's status. -/
inductive ActionsView where
  | progressSpinner
  | toggleButton (isActive : Bool)
deriving DecidableEq, Repr

/-- `UserActions` (`src/components/tables/UserActions.tsx`, lines
59–66): when `isUpdating`, the whole control is replaced by a
`CircularProgress`; otherwise the status-toggle button renders. -/
def renderUserActions (p : ActionsProps) : ActionsView :=
  if p.isUpdating then .progressSpinner
  else .toggleButton (p.user.status = .active)

/-- `usersWithActions` (`UsersPage.tsx`, lines 159–168): every row is
paired with a `UserActions` that receives the one page-wide
`isUpdating` flag of the mutation hook. -/
def usersWithActions (users : List User) (isUpdating : Bool) :
    List (User × ActionsProps) :=
  users.map fun u => (u, ⟨u, isUpdating⟩)

/-- Outcome of a JS call that can throw: a value or a caught
exception. -/
inductive ReadOutcome (α : Type) where
  | ok (v : α)
  | thrown
deriving DecidableEq, Repr

/-- The initializer of `useLocalStorage` (`UsersPage.tsx` source,
lines 271–279): `getItem` then `item ? JSON.parse(item) :
defaultValue`, the whole body in a `try` whose `catch` logs a warning
and returns the default.  The Bool reports whether the warning was
logged. -/
def useLocalStorageInit {T : Type} (getItem : ReadOutcome (Option String))
    (parse : String → ReadOutcome T) (defaultValue : T) : T × Bool :=
  match getItem with
  | .thrown => (defaultValue, true)
  | .ok none => (defaultValue, false)
  | .ok (some item) =>
      if item = "" then (defaultValue, false)
      else
        match parse item with
        | .thrown => (defaultValue, true)
        | .ok v => (v, false)

/-- Modelled from the spec: the grid treats a column key absent from
the visibility mapping as visible, so the default empty mapping means
all columns visible. -/
def visibleOf (vis : List (String × Bool)) (key : String) : Bool :=
  match vis.find? fun e => e.1 = key with
  | none => true
  | some e => e.2

/-- A demo user record for concrete instantiations. -/
def demoUser : User :=
  ⟨"u1", "Ada", "ada@example.com", .active, [⟨"g1", "Engineering"⟩], "2024-01-01"⟩

/-- A demo cache key for concrete instantiations. -/
def demoKey : QueryKey := .usersList ⟨1, 10, "", .all⟩

/-- A demo client with one cached page and an in-flight fetch. -/
def demoClient : Client :=
  ⟨[(demoKey, ⟨.page ⟨true, "ok", ⟨[demoUser], 1⟩⟩, false, true⟩)]⟩

/-- A demo client with one non-conforming cached value. -/
def demoClient2 : Client := ⟨[(demoKey, ⟨.nullish, false, false⟩)]⟩

/-- A demo page state with one sorting entry. -/
def demoPageState : PageState :=
  ⟨"ada", "ada", .active, ⟨3, 10⟩, [⟨"name", true⟩], []⟩

/-- Every digit the fuelled digit expansion emits is below 10. -/
theorem toDigitsRevFuel_lt_ten :
    ∀ fuel n, ∀ d ∈ toDigitsRevFuel fuel n, d < 10 := by
  intro fuel
  induction fuel with
  | zero => intro n d hd; simp [toDigitsRevFuel] at hd
  | succ f ih =>
    intro n d hd
    match n with
    | 0 => simp [toDigitsRevFuel] at hd
    | m + 1 =>
      simp only [toDigitsRevFuel, List.mem_cons] at hd
      rcases hd with h | h
      · subst h; exact Nat.mod_lt _ (by norm_num)
      · exact ih _ d h

/-- The fuelled expansion is exact whenever the fuel dominates the
number. -/
theorem ofDigitsRev_toDigitsRevFuel :
    ∀ fuel n, n ≤ fuel → ofDigitsRev (toDigitsRevFuel fuel n) = n := by
  intro fuel
  induction fuel with
  | zero => intro n hn; interval_cases n; rfl
  | succ f ih =>
    intro n hn
    match n with
    | 0 => rfl
    | m + 1 =>
      simp only [toDigitsRevFuel, ofDigitsRev]
      rw [ih ((m + 1) / 10) (by omega)]
      omega

/-- Decimal digits round-trip through their numeric value. -/
theorem ofDigitsRev_toDigitsRev (n : Nat) :
    ofDigitsRev (toDigitsRev n) = n :=
  ofDigitsRev_toDigitsRevFuel n n (Nat.le_refl n)

/-- Every digit of a decimal expansion is below 10. -/
theorem toDigitsRev_lt_ten (n : Nat) : ∀ d ∈ toDigitsRev n, d < 10 :=
  toDigitsRevFuel_lt_ten n n

/-- Parsing a digit character recovers the digit. -/
theorem digitVal_digitChar : ∀ d < 10, digitVal (digitChar d) = some d := by
  decide

/-- Digit-wise parsing inverts digit-wise printing. -/
theorem mapM_digitVal_map_digitChar (l : List Nat) (h : ∀ d ∈ l, d < 10) :
    (l.map digitChar).mapM digitVal = some l := by
  induction l with
  | nil => rfl
  | cons d ds ih =>
    rw [List.map_cons, List.mapM_cons,
        digitVal_digitChar d (h d (List.mem_cons_self d ds)),
        ih fun x hx => h x (List.mem_cons_of_mem d hx)]
    rfl

/-- `parseInt` inverts JS number printing on every natural number. -/
theorem jsParseNat_jsNatToString (n : Nat) :
    jsParseNat (jsNatToString n) = some n := by
  match n with
  | 0 => rfl
  | m + 1 =>
    rw [jsNatToString, if_neg (Nat.succ_ne_zero m), jsParseNat]
    show (((toDigitsRev (m + 1)).reverse.map digitChar).mapM digitVal).map _ = _
    rw [mapM_digitVal_map_digitChar _ fun d hd =>
          toDigitsRev_lt_ten _ d (List.mem_reverse.mp hd)]
    simp [List.reverse_reverse, ofDigitsRev_toDigitsRev]

/-- The numeral of a positive number is non-empty. -/
theorem jsNatToString_succ_ne_empty (m : Nat) : jsNatToString (m + 1) ≠ "" := by
  rw [jsNatToString, if_neg (Nat.succ_ne_zero m)]
  intro h
  have h2 := congrArg String.data h
  simp only [toDigitsRev, toDigitsRevFuel] at h2
  simp at h2

/-- Decoding the encoded page parameter recovers the 0-based index. -/
theorem decodePageIndex_encode (i : Nat) :
    decodePageIndex (some (jsNatToString (i + 1))) = i := by
  simp only [decodePageIndex, if_neg (jsNatToString_succ_ne_empty i),
    jsParseNat_jsNatToString]
  rfl

/-- The filter `['users']` matches every key this program builds. -/
theorem matchesFilter_usersAll (k : QueryKey) :
    matchesFilter .usersAll k = true := by
  cases k <;> rfl

/-- The cache after `onMutate`: each entry keeps its key and
invalidation mark, its fetch is cancelled and its value optimistically
rewritten. -/
theorem mutateInvoke_entries (userId : String) (st : Status) (c : Client) :
    (mutateInvoke userId st c).1.entries =
      c.entries.map fun e =>
        (e.1, ⟨optimisticUpdate userId st e.2.value, e.2.invalidated, false⟩) := by
  simp only [mutateInvoke, setQueriesData, cancelQueries, matchesFilter_usersAll,
    if_true, List.map_map]
  rfl

/-- The snapshot `onMutate` returns is the pre-mutation value of every
entry of the family, key by key. -/
theorem mutateInvoke_snapshot (userId : String) (st : Status) (c : Client) :
    (mutateInvoke userId st c).2.1 =
      c.entries.map fun e => (e.1, e.2.value) := by
  simp only [mutateInvoke, getQueriesData, cancelQueries, matchesFilter_usersAll,
    List.filter_true, List.map_map]
  rfl

/-- `find?` by key commutes with a key- and value-preserving rewrite
of the entry list, after projecting to the value. -/
theorem find?_map_value (l : List (QueryKey × QueryState))
    (g : QueryKey × QueryState → QueryKey × QueryState)
    (hkey : ∀ e, (g e).1 = e.1) (hval : ∀ e, (g e).2.value = e.2.value)
    (k : QueryKey) :
    (((l.map g).find? fun e => e.1 = k).map fun e => e.2.value)
      = (l.find? fun e => e.1 = k).map fun e => e.2.value := by
  induction l with
  | nil => rfl
  | cons a l ih =>
    simp only [List.map_cons, List.find?_cons]
    rw [show (decide ((g a).1 = k)) = decide (a.1 = k) by rw [hkey a]]
    cases hd : decide (a.1 = k) with
    | true => simp [hval a]
    | false => exact ih

/-- Invalidation does not touch cached values. -/
theorem valueAt_invalidateQueries (f : QueryKey) (c : Client) (k : QueryKey) :
    valueAt (invalidateQueries f c) k = valueAt c k := by
  rw [valueAt, valueAt, invalidateQueries]
  exact find?_map_value c.entries _
    (fun e => by dsimp only; split <;> rfl)
    (fun e => by dsimp only; split <;> rfl) k

/-- Updating the entry of a present key makes `find?` at that key
return the new value. -/
theorem find?_update_self (l : List (QueryKey × QueryState)) (k : QueryKey)
    (v : CacheValue) (h : ∃ e ∈ l, e.1 = k) :
    (((l.map fun e => if e.1 = k then (e.1, { e.2 with value := v }) else e).find?
        fun e => e.1 = k).map fun e => e.2.value) = some v := by
  induction l with
  | nil => simp at h
  | cons a l ih =>
    simp only [List.map_cons, List.find?_cons]
    by_cases ha : a.1 = k
    · simp [ha]
    · rw [if_neg ha]
      simp only [decide_eq_false ha]
      apply ih
      rcases h with ⟨e0, he0, hk0⟩
      rcases List.mem_cons.mp he0 with h1 | h1
      · exact absurd (h1 ▸ hk0) ha
      · exact ⟨e0, h1, hk0⟩

/-- Updating the entry of one key leaves `find?` at any other key
unchanged. -/
theorem find?_update_ne (l : List (QueryKey × QueryState)) (k k' : QueryKey)
    (v : CacheValue) (hne : k' ≠ k) :
    ((l.map fun e => if e.1 = k then (e.1, { e.2 with value := v }) else e).find?
        fun e => e.1 = k')
      = l.find? fun e => e.1 = k' := by
  induction l with
  | nil => rfl
  | cons a l ih =>
    simp only [List.map_cons, List.find?_cons]
    by_cases ha : a.1 = k
    · have hak : ¬ (a.1 = k') := fun hc => hne (by rw [← hc, ha])
      rw [if_pos ha]
      simp only [decide_eq_false hak]
      exact ih
    · rw [if_neg ha]
      cases hd : decide (a.1 = k') with
      | true => rfl
      | false => exact ih

/-- `setQueryData` writes exactly the value of the addressed key. -/
theorem valueAt_setQueryData_self (k : QueryKey) (v : CacheValue) (c : Client) :
    valueAt (setQueryData k v c) k = some v := by
  rw [setQueryData]
  split
  case isTrue h =>
    rw [valueAt]
    apply find?_update_self
    obtain ⟨e0, he0, hk0⟩ := List.any_eq_true.mp h
    exact ⟨e0, he0, of_decide_eq_true hk0⟩
  case isFalse h =>
    rw [valueAt]
    simp only [List.find?_append]
    have hnone : (c.entries.find? fun e => e.1 = k) = none := by
      rw [List.find?_eq_none]
      intro x hx hxk
      exact h (List.any_eq_true.mpr ⟨x, hx, hxk⟩)
    rw [hnone]
    simp [List.find?_cons]

/-- `setQueryData` leaves the value of every other key unchanged. -/
theorem valueAt_setQueryData_ne (k k' : QueryKey) (v : CacheValue)
    (c : Client) (hne : k' ≠ k) :
    valueAt (setQueryData k v c) k' = valueAt c k' := by
  rw [setQueryData]
  split
  case isTrue h =>
    rw [valueAt, valueAt]
    rw [find?_update_ne c.entries k k' v hne]
  case isFalse h =>
    rw [valueAt, valueAt]
    simp only [List.find?_append]
    have hlast : (([(k, (⟨v, false, false⟩ : QueryState))].find?
        fun e => e.1 = k') = none) := by
      simp [List.find?_cons, Ne.symm hne]
    rw [hlast]
    cases hfind : (c.entries.find? fun e => e.1 = k') <;> rfl

/-- One step of the rollback fold. -/
theorem rollback_cons (p : QueryKey × CacheValue) (rest : Snapshot)
    (c : Client) :
    rollbackFromSnapshot (p :: rest) c
      = rollbackFromSnapshot rest (setQueryData p.1 p.2 c) := rfl

/-- Rolling back a snapshot that does not mention a key leaves that
key's value alone. -/
theorem valueAt_rollback_not_mem (snap : Snapshot) (c : Client) (k : QueryKey)
    (hk : k ∉ snap.map Prod.fst) :
    valueAt (rollbackFromSnapshot snap c) k = valueAt c k := by
  induction snap generalizing c with
  | nil => rfl
  | cons p rest ih =>
    rw [rollback_cons]
    rw [ih (setQueryData p.1 p.2 c) fun hc => hk (List.mem_cons_of_mem _ hc)]
    exact valueAt_setQueryData_ne p.1 k p.2 c
      fun hc => hk (hc ▸ List.mem_cons_self _ _)

/-- Rolling back a snapshot with distinct keys restores the value of
every snapshotted key exactly. -/
theorem valueAt_rollback_mem (snap : Snapshot) (c : Client)
    (hnd : (snap.map Prod.fst).Nodup) :
    ∀ kv ∈ snap, valueAt (rollbackFromSnapshot snap c) kv.1 = some kv.2 := by
  induction snap generalizing c with
  | nil => intro kv h; simp at h
  | cons p rest ih =>
    intro kv hkv
    rw [List.map_cons, List.nodup_cons] at hnd
    rw [rollback_cons]
    rcases List.mem_cons.mp hkv with h1 | h1
    · subst h1
      rw [valueAt_rollback_not_mem rest (setQueryData kv.1 kv.2 c) kv.1 hnd.1]
      exact valueAt_setQueryData_self kv.1 kv.2 c
    · exact ih (setQueryData p.1 p.2 c) hnd.2 kv h1

/-- After family invalidation every entry is marked invalidated. -/
theorem invalidateQueries_all_marked (c : Client) :
    ∀ e ∈ (invalidateQueries .usersAll c).entries, e.2.invalidated = true := by
  intro e he
  rw [invalidateQueries] at he
  simp only [matchesFilter_usersAll, if_true] at he
  obtain ⟨a, _, rfl⟩ := List.mem_map.mp he
  rfl

/-- After family invalidation a read for any key goes back to the
data source. -/
theorem readRefetches_invalidateQueries (c : Client) (k : QueryKey) :
    readRefetches (invalidateQueries .usersAll c) k = true := by
  rw [readRefetches]
  cases hf : ((invalidateQueries .usersAll c).entries.find? fun e => e.1 = k) with
  | none => rfl
  | some e =>
    exact invalidateQueries_all_marked c e (List.mem_of_find?_eq_some hf)

/-- `setStatusIfMatch` rewrites only the status of the matching
record and nothing else. -/
theorem setStatusIfMatch_fields (userId : String) (st : Status) (u : User) :
    (setStatusIfMatch userId st u).userId = u.userId ∧
    (setStatusIfMatch userId st u).name = u.name ∧
    (setStatusIfMatch userId st u).email = u.email ∧
    (setStatusIfMatch userId st u).groups = u.groups ∧
    (setStatusIfMatch userId st u).createdAt = u.createdAt ∧
    (setStatusIfMatch userId st u).status
      = (if u.userId = userId then st else u.status) := by
  rw [setStatusIfMatch]
  split <;> simp_all

/-- C1: On invocation with a record id and a new status value, and
before the write settles, the mutation engine (1) cancels the in-flight
fetch of every entry of the list-query family, (2) snapshots the
current value of every cache entry of the family, (3) synchronously
rewrites in every cached entry the record whose id equals the given id
to carry the new status while leaving its other fields and all other
records unchanged, and (4) dispatches `updateUserStatus(recordId,
newStatusValue)` to the external mutation collaborator. -/
theorem mutation_start_optimistic (userId : String) (st : Status) (c : Client) :
    ((mutateInvoke userId st c).1.entries =
      c.entries.map fun e =>
        (e.1, ⟨optimisticUpdate userId st e.2.value, e.2.invalidated, false⟩)) ∧
    ((mutateInvoke userId st c).2.1 =
      c.entries.map fun e => (e.1, e.2.value)) ∧
    ((mutateInvoke userId st c).2.2 = ⟨userId, st⟩) ∧
    (∀ resp : UsersResponse,
      optimisticUpdate userId st (.page resp) =
        .page { resp with
                data := { resp.data with
                          users := resp.data.users.map
                            (setStatusIfMatch userId st) } }) ∧
    (∀ u : User,
      (setStatusIfMatch userId st u).userId = u.userId ∧
      (setStatusIfMatch userId st u).name = u.name ∧
      (setStatusIfMatch userId st u).email = u.email ∧
      (setStatusIfMatch userId st u).groups = u.groups ∧
      (setStatusIfMatch userId st u).createdAt = u.createdAt ∧
      (setStatusIfMatch userId st u).status
        = (if u.userId = userId then st else u.status)) :=
  ⟨mutateInvoke_entries userId st c, mutateInvoke_snapshot userId st c, rfl,
    fun _ => rfl, fun u => setStatusIfMatch_fields userId st u⟩

/-- C10: the optimistic updater is total and acts as the identity on
every cached value that does not carry a users list. -/
theorem optimistic_update_identity_on_foreign (userId : String) (st : Status)
    (v : CacheValue) (h : v.hasUsersList = false) :
    optimisticUpdate userId st v = v := by
  cases v with
  | page resp => simp [CacheValue.hasUsersList] at h
  | nullish => rfl
  | noData r => rfl
  | noUsers r => rfl

/-- Witness for C10 at the nullish cached value. -/
theorem optimistic_update_identity_on_foreign_witness :
    (CacheValue.nullish.hasUsersList = false) ∧
      optimisticUpdate "u1" .inactive .nullish = .nullish :=
  ⟨by decide,
    optimistic_update_identity_on_foreign "u1" .inactive .nullish (by decide)⟩

/-- C2: a mutation that settles with a failure restores every cache
entry of the family to exactly the value captured in the snapshot at
mutation start, discards the snapshot, and produces a user-visible
error notification. -/
theorem mutation_failure_rollback (userId : String) (st : Status) (c : Client)
    (hnd : (c.entries.map Prod.fst).Nodup) :
    (∀ kv ∈ (mutateInvoke userId st c).2.1,
        valueAt (settleFailure (mutateInvoke userId st c).2.1
                  (mutateInvoke userId st c).1).1 kv.1 = some kv.2) ∧
    ((settleFailure (mutateInvoke userId st c).2.1
        (mutateInvoke userId st c).1).2.1
      = [⟨"Failed to update user status", true⟩]) ∧
    ((settleFailure (mutateInvoke userId st c).2.1
        (mutateInvoke userId st c).1).2.2 = MutationPhase.settled) := by
  refine ⟨?_, rfl, rfl⟩
  intro kv hkv
  show valueAt (invalidateQueries .usersAll
      (rollbackFromSnapshot (mutateInvoke userId st c).2.1
        (mutateInvoke userId st c).1)) kv.1 = some kv.2
  rw [valueAt_invalidateQueries]
  apply valueAt_rollback_mem
  · rw [mutateInvoke_snapshot, List.map_map]
    exact hnd
  · exact hkv

/-- Witness for C2 on the demo client. -/
theorem mutation_failure_rollback_witness :
    ((demoClient.entries.map Prod.fst).Nodup) ∧
    ((demoKey, CacheValue.page ⟨true, "ok", ⟨[demoUser], 1⟩⟩)
        ∈ (mutateInvoke "u1" Status.inactive demoClient).2.1) ∧
    valueAt (settleFailure (mutateInvoke "u1" .inactive demoClient).2.1
        (mutateInvoke "u1" .inactive demoClient).1).1 demoKey
      = some (.page ⟨true, "ok", ⟨[demoUser], 1⟩⟩) :=
  ⟨by decide, by decide,
    (mutation_failure_rollback "u1" .inactive demoClient (by decide)).1
      (demoKey, CacheValue.page ⟨true, "ok", ⟨[demoUser], 1⟩⟩) (by decide)⟩

/-- C3: every settlement, successful or failed, marks every cache
entry of the family invalidated, so the next read for any key of the
family goes back to the data source. -/
theorem settlement_invalidates_family (msg : String) (snap : Snapshot)
    (c : Client) (k : QueryKey) :
    readRefetches (settleSuccess msg c).1 k = true ∧
    readRefetches (settleFailure snap c).1 k = true ∧
    (∀ e ∈ (settleSuccess msg c).1.entries, e.2.invalidated = true) ∧
    (∀ e ∈ (settleFailure snap c).1.entries, e.2.invalidated = true) :=
  ⟨readRefetches_invalidateQueries c k,
    readRefetches_invalidateQueries (rollbackFromSnapshot snap c) k,
    invalidateQueries_all_marked c,
    invalidateQueries_all_marked (rollbackFromSnapshot snap c)⟩

/-- Witness for C3 on the demo client. -/
theorem settlement_invalidates_family_witness :
    ((demoKey, (⟨CacheValue.nullish, true, false⟩ : QueryState))
        ∈ (settleSuccess "ok" demoClient2).1.entries) ∧
    (⟨CacheValue.nullish, true, false⟩ : QueryState).invalidated = true :=
  ⟨by decide,
    (settlement_invalidates_family "ok" [] demoClient2 demoKey).2.2.1
      (demoKey, ⟨CacheValue.nullish, true, false⟩) (by decide)⟩

/-- C4 counterexample: two ViewParams that differ only in the sort
field map to the same cache key, so the key is not derived from all
ViewParams fields except columnVisibility — sort is excluded too. -/
theorem cacheKey_ignores_sort_counterexample :
    cacheKeyOfView ⟨"", .all, 0, 10, some ⟨"name", false⟩, []⟩
      = cacheKeyOfView ⟨"", .all, 0, 10, none, []⟩ ∧
    (⟨"", .all, 0, 10, some ⟨"name", false⟩, []⟩ : ViewParams).sort
      ≠ (⟨"", .all, 0, 10, none, []⟩ : ViewParams).sort :=
  ⟨rfl, by decide⟩

/-- C4 (amended): the read-path cache key is derived from searchText,
statusFilter, pageIndex and pageSize only — excluding columnVisibility
and also sort — and two ViewParams hit the same cache entry exactly
when they agree on those four fields. -/
theorem cacheKey_determined_by_four_fields (v1 v2 : ViewParams) :
    cacheKeyOfView v1 = cacheKeyOfView v2 ↔
      (v1.searchText = v2.searchText ∧ v1.statusFilter = v2.statusFilter ∧
       v1.pageIndex = v2.pageIndex ∧ v1.pageSize = v2.pageSize) := by
  constructor
  · intro h
    simp only [cacheKeyOfView, paginationParamsOfView, QueryKey.usersList.injEq,
      PaginationParams.mk.injEq] at h
    obtain ⟨hp, hps, hq, hs⟩ := h
    exact ⟨hq, hs, by omega, hps⟩
  · rintro ⟨h1, h2, h3, h4⟩
    simp [cacheKeyOfView, paginationParamsOfView, h1, h2, h3, h4]

/-- Witness for C4's amended statement: equal four fields, different
sort and visibility, same key. -/
theorem cacheKey_determined_by_four_fields_witness :
    cacheKeyOfView ⟨"q", .active, 2, 10, some ⟨"name", true⟩, []⟩
      = cacheKeyOfView ⟨"q", .active, 2, 10, none, [("x", false)]⟩ :=
  (cacheKey_determined_by_four_fields _ _).mpr ⟨rfl, rfl, rfl, rfl⟩

/-- The encoder reads only the page index, the status filter, the
debounced search text and the head of the sorting list. -/
theorem encodeParams_congr (a b : PageState)
    (h1 : a.pagination.pageIndex = b.pagination.pageIndex)
    (h2 : a.statusFilter = b.statusFilter)
    (h3 : a.debouncedSearch = b.debouncedSearch)
    (h4 : a.sorting.head? = b.sorting.head?) :
    encodeParams a = encodeParams b := by
  rcases ha : a.sorting with _ | ⟨e1, r1⟩ <;>
    rcases hb : b.sorting with _ | ⟨e2, r2⟩ <;>
    rw [ha, hb] at h4 <;> simp at h4
  · simp [encodeParams, h1, h2, h3, ha, hb]
  · subst h4
    simp [encodeParams, h1, h2, h3, ha, hb]

/-- C5: for every page state the synchronizer can produce (sort ids
are column keys, hence non-empty), decoding the encoded external
parameters yields a view equal to the original in all encoded fields
(page, statusFilter, searchText, sort), and re-encoding the decoded
state reproduces the same external map. -/
theorem url_encode_decode_roundtrip (s : PageState)
    (hid : ∀ e ∈ s.sorting, e.id ≠ "") :
    ((viewParamsOfState (decodeState (encodeParams s))).pageIndex
        = (viewParamsOfState s).pageIndex) ∧
    ((viewParamsOfState (decodeState (encodeParams s))).statusFilter
        = (viewParamsOfState s).statusFilter) ∧
    ((viewParamsOfState (decodeState (encodeParams s))).searchText
        = (viewParamsOfState s).searchText) ∧
    ((viewParamsOfState (decodeState (encodeParams s))).sort
        = (viewParamsOfState s).sort) ∧
    encodeParams (decodeState (encodeParams s)) = encodeParams s := by
  have hpage : (decodeState (encodeParams s)).pagination.pageIndex
      = s.pagination.pageIndex := decodePageIndex_encode s.pagination.pageIndex
  have hstatus : (decodeState (encodeParams s)).statusFilter = s.statusFilter := by
    rcases s with ⟨sq, sd, sf, sp, ss, sv⟩
    cases sf <;> rfl
  have hdeb : (decodeState (encodeParams s)).debouncedSearch
      = s.debouncedSearch := by
    by_cases hq : s.debouncedSearch = ""
    · simp [decodeState, encodeParams, hq]
    · simp [decodeState, encodeParams, hq]
  have hsort : (decodeState (encodeParams s)).sorting
      = (match s.sorting with
         | [] => ([] : List SortEntry)
         | e :: _ => [⟨e.id, e.desc⟩]) := by
    rcases hss : s.sorting with _ | ⟨e, rest⟩
    · simp [decodeState, encodeParams, hss, decodeSorting]
    · have hne : e.id ≠ "" := hid e (by rw [hss]; exact List.mem_cons_self e rest)
      cases e with
      | mk eid edesc =>
        cases edesc <;>
          simp [decodeState, encodeParams, decodeSorting, hss, hne]
  have hhead : (decodeState (encodeParams s)).sorting.head? = s.sorting.head? := by
    rw [hsort]
    rcases s.sorting with _ | ⟨e, rest⟩
    · rfl
    · rfl
  exact ⟨hpage, hstatus, hdeb, hhead,
    encodeParams_congr (decodeState (encodeParams s)) s hpage hstatus hdeb hhead⟩

/-- Witness for C5 on a demo state with search, filter, page 4 and a
descending sort. -/
theorem url_encode_decode_roundtrip_witness :
    (∀ e ∈ demoPageState.sorting, e.id ≠ "") ∧
    encodeParams (decodeState (encodeParams demoPageState))
      = encodeParams demoPageState :=
  ⟨by decide,
    (url_encode_decode_roundtrip demoPageState (by decide)).2.2.2.2⟩

/-- C6 counterexample: a search keystroke (which resets the page),
then a pagination to page index 2 during the quiet interval, then the
debounce settlement — the settlement delivers a new searchText while
pageIndex is 2 > 0 yet leaves it at 2, and the next derived fetch
still requests external page 3. -/
theorem settle_does_not_reset_page_counterexample :
    ((runPage ⟨"", "", .all, ⟨0, 10⟩, [], []⟩
        [.keystroke "a", .paginate ⟨2, 10⟩]).debouncedSearch = "") ∧
    ((runPage ⟨"", "", .all, ⟨0, 10⟩, [], []⟩
        [.keystroke "a", .paginate ⟨2, 10⟩]).pagination.pageIndex = 2) ∧
    ((runPage ⟨"", "", .all, ⟨0, 10⟩, [], []⟩
        [.keystroke "a", .paginate ⟨2, 10⟩, .debounceFire]).debouncedSearch
      = "a") ∧
    ((runPage ⟨"", "", .all, ⟨0, 10⟩, [], []⟩
        [.keystroke "a", .paginate ⟨2, 10⟩, .debounceFire]).pagination.pageIndex
      = 2) ∧
    (paginationParamsOfView (viewParamsOfState
        (runPage ⟨"", "", .all, ⟨0, 10⟩, [], []⟩
          [.keystroke "a", .paginate ⟨2, 10⟩, .debounceFire]))).page = 3 := by
  decide

/-- C6 (amended): every statusFilter change and every raw searchText
keystroke resets pageIndex to 0; the debounce settlement itself, and
sort and column-visibility changes, leave pagination unchanged. -/
theorem page_reset_events (s : PageState) (v : String) (f : StatusFilter)
    (x : List SortEntry) (vis : List (String × Bool)) :
    (stepPage s (.keystroke v)).pagination.pageIndex = 0 ∧
    (stepPage s (.statusChange f)).pagination.pageIndex = 0 ∧
    (stepPage s (.sortChange x)).pagination = s.pagination ∧
    (stepPage s (.visChange vis)).pagination = s.pagination ∧
    (stepPage s .debounceFire).pagination = s.pagination :=
  ⟨rfl, rfl, rfl, rfl, rfl⟩

/-- C7: resolving a chiplist cell with a groups sequence yields one
chip per element, keyed by that element's groupId and labeled by its
groupName, in sequence order; an empty or absent sequence yields the
distinct no-items indicator; the structured value is never passed
through as stringified text. -/
theorem chiplist_rendering (meta : ColumnMetadata) (h : meta.type = .chiplist)
    (gs : List Group) :
    (gs ≠ [] → renderCellByType (.groupsVal gs) meta
        = .chipBox (gs.map fun g => ⟨g.groupId, g.groupName⟩)) ∧
    renderCellByType (.groupsVal []) meta = .noGroupsSpan ∧
    renderCellByType .nullish meta = .noGroupsSpan ∧
    (renderCellByType (.groupsVal gs) meta = .noGroupsSpan ∨
      renderCellByType (.groupsVal gs) meta
        = .chipBox (gs.map fun g => ⟨g.groupId, g.groupName⟩)) ∧
    (∀ v : CellValue, renderCellByType (.groupsVal gs) meta ≠ .rawText v) := by
  refine ⟨?_, ?_, ?_, ?_, ?_⟩
  · intro hne
    simp only [renderCellByType, h]
    rw [if_neg fun hc => hne (List.length_eq_zero.mp hc)]
  · simp [renderCellByType, h]
  · simp [renderCellByType, h]
  · simp only [renderCellByType, h]
    by_cases hgs : gs.length = 0
    · left; rw [if_pos hgs]
    · right; rw [if_neg hgs]
  · intro v
    simp only [renderCellByType, h]
    split <;> simp

/-- Witness for C7 at the spec's two-group example. -/
theorem chiplist_rendering_witness :
    ((⟨"groups", "Groups", .chiplist, none, false, false, none⟩
        : ColumnMetadata).type = ColType.chiplist) ∧
    ([(⟨"g1", "Engineering"⟩ : Group), ⟨"g2", "Sales"⟩] ≠ ([] : List Group)) ∧
    renderCellByType (.groupsVal [⟨"g1", "Engineering"⟩, ⟨"g2", "Sales"⟩])
        ⟨"groups", "Groups", .chiplist, none, false, false, none⟩
      = .chipBox [⟨"g1", "Engineering"⟩, ⟨"g2", "Sales"⟩] :=
  ⟨rfl, by decide,
    (chiplist_rendering ⟨"groups", "Groups", .chiplist, none, false, false, none⟩
      rfl [⟨"g1", "Engineering"⟩, ⟨"g2", "Sales"⟩]).1 (by decide)⟩

/-- C8 counterexample: with a mutation in flight, every row — here
also the record `u2`, distinct from the mutated `u1` — has its control
replaced by the spinner; the other record's control does not stay
enabled. -/
theorem pending_flag_not_per_record_counterexample :
    ((usersWithActions [⟨"u1", "A", "a@x.io", .active, [], "d"⟩,
        ⟨"u2", "B", "b@x.io", .active, [], "d"⟩] true).map
      fun r => renderUserActions r.2)
      = [.progressSpinner, .progressSpinner] ∧
    ("u1" : String) ≠ "u2" := by
  decide

/-- C8 (amended): the presentation layer receives one page-wide
mutation-pending flag shared by every record; while a write is
pending, every record's action control — not only the in-flight
record's — is replaced by the progress indicator. -/
theorem pending_flag_page_wide (users : List User) (b : Bool) :
    ((usersWithActions users b).map fun r => r.2.isUpdating)
      = users.map (fun _ => b) ∧
    ((usersWithActions users true).map fun r => renderUserActions r.2)
      = users.map fun _ => .progressSpinner := by
  constructor
  · induction users with
    | nil => rfl
    | cons u us ih => simpa [usersWithActions, renderUserActions] using ih
  · induction users with
    | nil => rfl
    | cons u us ih => simpa [usersWithActions, renderUserActions] using ih

/-- C9: when the persisted-settings read throws or its stored value
cannot be parsed, the column-visibility state falls back to the
default empty mapping — meaning every column visible — the failure is
logged, and the initializer still returns a value the view renders
with. -/
theorem column_visibility_storage_fallback
    (parse : String → ReadOutcome (List (String × Bool)))
    (raw : String) (hraw : raw ≠ "") (hp : parse raw = .thrown) :
    useLocalStorageInit .thrown parse ([] : List (String × Bool)) = ([], true) ∧
    useLocalStorageInit (.ok (some raw)) parse [] = ([], true) ∧
    useLocalStorageInit (.ok none) parse [] = ([], false) ∧
    (∀ col, visibleOf [] col = true) := by
  refine ⟨rfl, ?_, rfl, fun col => rfl⟩
  rw [useLocalStorageInit]
  simp [hraw, hp]

/-- Witness for C9 with a parse that always throws. -/
theorem column_visibility_storage_fallback_witness :
    (("oops" : String) ≠ "") ∧
    ((fun _ : String =>
        (ReadOutcome.thrown : ReadOutcome (List (String × Bool)))) "oops"
      = .thrown) ∧
    useLocalStorageInit (.ok (some "oops"))
        (fun _ : String =>
          (ReadOutcome.thrown : ReadOutcome (List (String × Bool)))) []
      = ([], true) ∧
    visibleOf [] "email" = true :=
  ⟨by decide, rfl,
    (column_visibility_storage_fallback
      (fun _ => .thrown) "oops" (by decide) rfl).2.1,
    (column_visibility_storage_fallback
      (fun _ => .thrown) "oops" (by decide) rfl).2.2.2 "email"⟩

end UsersApp
